import Mathlib

/-!
Formal model of the serial_commander repository.

The development shallowly embeds the two core source files:

* `src/utils/command_parser.py` — the response classifier `parse_response`;
* `src/serial_communication.py` — the transport session (`open_serial`,
  `close_serial`, `_read_response`) and the command transaction engine
  (`send_command`, `_handle_retry`, `_parse_response`,
  `_handle_serial_exception`).

Python strings are embedded as Lean `String`; the handful of string
operations the source uses (`str.split`, `str.strip`, `str.startswith`,
substring containment) are implemented below over `List Char` by structural
recursion so that every definition evaluates inside the kernel.
-/

/-! ## String primitives (models of the Python string operations used) -/

/-- Model of Python `s.split(sep)` for a one-character separator, accumulator
form: empty parts are kept, so for example `"".split` gives one empty part. -/
def splitCharAux (sep : Char) : List Char → List Char → List (List Char)
  | [], cur => [cur.reverse]
  | c :: rest, cur =>
    if c = sep then cur.reverse :: splitCharAux sep rest []
    else splitCharAux sep rest (c :: cur)

/-- Model of Python `response.split('\n')` as used by `parse_response`. -/
def pyLines (s : String) : List String := (splitCharAux '\n' s.data []).map String.mk

/-- Model of Python `line.strip()`: drop ASCII whitespace from both ends. -/
def pyStrip (s : String) : String :=
  String.mk (((s.data.dropWhile Char.isWhitespace).reverse.dropWhile Char.isWhitespace).reverse)

/-- Model of Python `s.startswith(p)`. -/
def pyStartsWith (s p : String) : Bool := p.data.isPrefixOf s.data

/-- Occurrence of `pat` as a contiguous sublist, used to model Python
substring containment (`pat in s`); the empty pattern occurs everywhere. -/
def infixOf (pat : List Char) : List Char → Bool
  | [] => pat.isEmpty
  | c :: rest => pat.isPrefixOf (c :: rest) || infixOf pat rest

/-- Model of Python `sub in s`. -/
def pyContains (s sub : String) : Bool := infixOf sub.data s.data

/-- Model of Python `int(s)`: optional surrounding whitespace, an optional
sign, then a non-empty run of decimal digits; anything else raises
`ValueError`, modelled as `none`. -/
def pyIntParse (s : String) : Option Int :=
  let t := (pyStrip s).data
  let core := match t with
    | '-' :: rest => rest
    | '+' :: rest => rest
    | other => other
  if core ≠ [] ∧ core.all Char.isDigit then
    let n : Nat := core.foldl (fun acc c => acc * 10 + (c.toNat - 48)) 0
    some (match t with
      | '-' :: _ => -(n : Int)
      | _ => (n : Int))
  else none

/-- Model of the acceptance condition of Python `float(s)` on the grammar
field texts: optional whitespace and sign, then digits with at most one
decimal point and at least one digit (exponents and `inf`/`nan` spellings
are not modelled; none of the properties below depend on them). -/
def pyFloatOk (s : String) : Bool :=
  let t := (pyStrip s).data
  let core := match t with
    | '-' :: rest => rest
    | '+' :: rest => rest
    | other => other
  match splitCharAux '.' core [] with
  | [a] => a ≠ [] && a.all Char.isDigit
  | [a, b] => (a ≠ [] || b ≠ []) && (a.all Char.isDigit && b.all Char.isDigit)
  | _ => false

/-! ## Response classifier data model (`src/utils/command_parser.py`) -/

/-- Model of a compiled response pattern: `re.match(pattern, line)` is
embedded as a function from the line to `none` (no match) or
`some groups` (the tuple `match.groups()`). -/
abbrev Matcher := String → Option (List String)

/-- Model of the `ESP32_RESPONSE_PATTERNS` grammar: an insertion-ordered
mapping from response-type name to pattern, iterated in declaration order. -/
abbrev Grammar := List (String × Matcher)

/-- Parsed Response: the typed dictionaries returned by `parse_response`,
one case per handled response type. The `GEN_SIGNAL` value field is
`float(value)` in Python; it is represented here by the accepted literal
text of the captured group. -/
inductive ParsedResponse where
  | gpioOutput (pin : Int) (status : String)
  | gpioInput (pin : Int) (value : String) (status : String)
  | pwmOutput (pin : Int) (status : String)
  | dacOutput (pin : Int) (status : String)
  | adcInput (pin : Int) (value : Int) (status : String)
  | genSignal (signalType : Int) (valueText : String) (status : String)
  | closedLoop (id : Int) (status : String)
deriving DecidableEq, Repr

/-- Status token of a Parsed Response (the `'status'` dictionary entry,
present in every case). -/
def ParsedResponse.status : ParsedResponse → String
  | .gpioOutput _ s => s
  | .gpioInput _ _ s => s
  | .pwmOutput _ s => s
  | .dacOutput _ s => s
  | .adcInput _ _ s => s
  | .genSignal _ _ s => s
  | .closedLoop _ s => s

/-- Outcome of handling one matched `(response_type, groups)` pair inside the
grammar loop of `parse_response`:

* `ok r` — one of the seven `elif` branches fired and built a dictionary;
* `raised` — tuple unpacking or an `int(...)`/`float(...)` coercion raised
  (`ValueError`), which propagates out of `parse_response`;
* `fallthrough` — the response-type name is none of the seven handled names,
  so no branch returns and the loop continues with the next grammar entry. -/
inductive MatchRes where
  | ok (r : ParsedResponse)
  | raised
  | fallthrough
deriving DecidableEq, Repr

/-- Model of the `if response_type == ... elif ...` chain of
`parse_response`, applied to a matched entry name and its captured groups. -/
def dispatch (name : String) (groups : List String) : MatchRes :=
  if name = "GPIO_OUTPUT" then
    match groups with
    | [pin, status] =>
      match pyIntParse pin with
      | some p => .ok (.gpioOutput p status)
      | none => .raised
    | _ => .raised
  else if name = "GPIO_INPUT" then
    match groups with
    | [pin, value, status] =>
      match pyIntParse pin with
      | some p => .ok (.gpioInput p value status)
      | none => .raised
    | _ => .raised
  else if name = "PWM_OUTPUT" then
    match groups with
    | [pin, status] =>
      match pyIntParse pin with
      | some p => .ok (.pwmOutput p status)
      | none => .raised
    | _ => .raised
  else if name = "DAC_OUTPUT" then
    match groups with
    | [pin, status] =>
      match pyIntParse pin with
      | some p => .ok (.dacOutput p status)
      | none => .raised
    | _ => .raised
  else if name = "ADC_INPUT" then
    match groups with
    | [pin, value, status] =>
      match pyIntParse pin, pyIntParse value with
      | some p, some v => .ok (.adcInput p v status)
      | _, _ => .raised
    | _ => .raised
  else if name = "GEN_SIGNAL" then
    match groups with
    | [sigType, value, status] =>
      match pyIntParse sigType, pyFloatOk value with
      | some t, true => .ok (.genSignal t value status)
      | _, _ => .raised
    | _ => .raised
  else if name = "CLOSED_LOOP" then
    match groups with
    | [idVal, status] =>
      match pyIntParse idVal with
      | some i => .ok (.closedLoop i status)
      | none => .raised
    | _ => .raised
  else .fallthrough

/-- Overall outcome of one call to `parse_response`: the four `return None`
sites of the source are kept distinct (they are distinguished by their log
messages), and `raised` records an exception propagating out of the
classifier. -/
inductive ParseOutcome where
  | parsed (r : ParsedResponse)
  | emptyResponse
  | noValidLines
  | noMatch
  | raised
deriving DecidableEq, Repr

/-- Candidate-line selection of `parse_response`: split the raw buffer on
newlines, strip each line, keep exactly the lines starting with the literal
prefix token `RESPONSE:` followed by a single space. -/
def candidateLines (response : String) : List String :=
  ((pyLines response).map pyStrip).filter (fun l => pyStartsWith l "RESPONSE: ")

/-- Inner grammar loop of `parse_response` for one candidate line: entries
are tried in declaration order; the first entry whose pattern matches is
dispatched; a `fallthrough` dispatch (unhandled type name) continues with
the next entry, exactly as the Python `elif` chain does. `none` means the
loop finished without returning or raising. -/
def scanEntries (line : String) : Grammar → Option ParseOutcome
  | [] => none
  | (name, m) :: rest =>
    match m line with
    | none => scanEntries line rest
    | some groups =>
      match dispatch name groups with
      | .ok r => some (.parsed r)
      | .raised => some .raised
      | .fallthrough => scanEntries line rest

/-- Outer loop of `parse_response` over the collected candidate lines; if no
line produces a return or a raise, the source falls through to the final
`return None` ("No valid response matched."). -/
def scanLines (g : Grammar) : List String → ParseOutcome
  | [] => .noMatch
  | l :: rest =>
    match scanEntries l g with
    | some o => o
    | none => scanLines g rest

/-- Model of `parse_response(response)` from `src/utils/command_parser.py`,
with the loaded `ESP32_RESPONSE_PATTERNS` grammar passed as a parameter
(`parse_response_load` below models the in-classifier loading itself). The
`isinstance(response, str)` guard is rendered moot by the typed embedding. -/
def parse_response (g : Grammar) (response : String) : ParseOutcome :=
  if response = "" then .emptyResponse
  else if candidateLines response = [] then .noValidLines
  else scanLines g (candidateLines response)

/-! ## Command transaction engine (`src/serial_communication.py`) -/

/-- Truth value returned by `SerialCommunication._parse_response`: `True`
exactly when the classifier returned a dictionary whose `'status'` entry
equals the string `OK`. A `raised` outcome never reaches this test (the
exception propagates to the caller of `_parse_response`). -/
def respOk : ParseOutcome → Bool
  | .parsed p => p.status == "OK"
  | _ => false

/-- Behaviour of the transport during one attempt of `send_command`, as seen
at the engine boundary: either some step of `_ensure_connection`,
`_clear_pending_data`, `_send_command` or `_read_response` raises a
`serial.SerialException`, or some step raises another `Exception`, or the
transport works and the timed read returns the text `r` (possibly empty). -/
inductive AttB where
  | serExn
  | genExn
  | resp (r : String)
deriving DecidableEq, Repr

/-- Engine-level events recorded by the model: one `write cmd` per
`_send_command(cmd)` invocation, one `sleep d` per `time.sleep(retry_delay)`
in `_handle_retry`, and one `closeReopen` per `_handle_serial_exception`
close-then-reopen attempt. (The fixed 100 ms post-write settle inside
`_send_command` and the 50 ms read poll are internal to those steps and are
not separate events.) -/
inductive Ev where
  | write (cmd : String)
  | sleep (d : ℚ)
  | closeReopen
deriving DecidableEq, Repr

/-- Attempt of `send_command` at the maximum retry count (the source guard
`retry_count < self.max_retries` is false, so `_handle_retry` returns
`False` without recursing):

* a `SerialException` is caught by the first `except` arm, which calls
  `_handle_serial_exception` (close then reopen) and returns `False`;
* any other exception — including a `ValueError` raised out of
  `parse_response` during coercion — is caught by the blanket `except
  Exception` arm, which returns `False`;
* an empty read, or a classified response whose status is not `OK`, is a
  failure with no retries remaining, returning `False`;
* an `OK`-classified response returns `True`. -/
def attemptLast (g : Grammar) (cmd : String) (a : AttB) : Bool × List Ev :=
  match a with
  | .serExn => (false, [Ev.closeReopen])
  | .genExn => (false, [])
  | .resp r =>
    if r = "" then (false, [Ev.write cmd])
    else if parse_response g r = .raised then (false, [Ev.write cmd])
    else if respOk (parse_response g r) then (true, [Ev.write cmd])
    else (false, [Ev.write cmd])

/-- Recursion core of `send_command`: `rem` is the number of retries still
allowed, i.e. `max_retries - retry_count`, so the source guard
`retry_count < self.max_retries` is exactly `rem ≠ 0`. With retries
remaining, the exception arms behave as in `attemptLast`, while an empty
read or a non-`OK` classification invokes `_handle_retry`: sleep
`retry_delay`, then recurse with `retry_count + 1`. -/
def send_command_go (g : Grammar) (δ : ℚ) (cmd : String) (att : Nat → AttB) :
    Nat → Nat → Bool × List Ev
  | 0, rc => attemptLast g cmd (att rc)
  | rem + 1, rc =>
    match att rc with
    | .serExn => (false, [Ev.closeReopen])
    | .genExn => (false, [])
    | .resp r =>
      if r = "" then
        let res := send_command_go g δ cmd att rem (rc + 1)
        (res.1, Ev.write cmd :: Ev.sleep δ :: res.2)
      else if parse_response g r = .raised then (false, [Ev.write cmd])
      else if respOk (parse_response g r) then (true, [Ev.write cmd])
      else
        let res := send_command_go g δ cmd att rem (rc + 1)
        (res.1, Ev.write cmd :: Ev.sleep δ :: res.2)

/-- Model of `SerialCommunication.send_command(command, retry_count)` with
`max_retries = maxR` and `retry_delay = δ`, returning the boolean result
together with the engine-level event trace. -/
def send_command (g : Grammar) (maxR : Nat) (δ : ℚ) (cmd : String)
    (att : Nat → AttB) (rc : Nat) : Bool × List Ev :=
  send_command_go g δ cmd att (maxR - rc) rc

/-- Exceptions distinguished by the two `except` arms of `send_command`. -/
inductive PyExn where
  | serial
  | generic
deriving DecidableEq, Repr

/-- Semantics of the `try` block of `send_command` for the current attempt,
with exceptions left uncaught (`Except.error`). Recursive attempts made via
`_handle_retry` re-enter the full `send_command` (which has its own
`try`/`except`), so they appear here through the total wrapper. -/
def send_body (g : Grammar) (maxR : Nat) (δ : ℚ) (cmd : String)
    (att : Nat → AttB) (rc : Nat) : Except PyExn Bool :=
  match att rc with
  | .serExn => .error .serial
  | .genExn => .error .generic
  | .resp r =>
    if r = "" then
      if rc < maxR then .ok (send_command g maxR δ cmd att (rc + 1)).1
      else .ok false
    else if parse_response g r = .raised then .error .generic
    else if respOk (parse_response g r) then .ok true
    else if rc < maxR then .ok (send_command g maxR δ cmd att (rc + 1)).1
    else .ok false

/-- Model of the two `except` arms of `send_command`: every exception is
mapped to the boolean `False`. -/
def pyCatchAll : Except PyExn Bool → Bool
  | .ok b => b
  | .error _ => false

/-- Success of a single attempt in the sense of the specification: the
transport delivered a non-empty read whose classification produced a Parsed
Response with status token exactly `OK`. -/
def attemptSuccess (g : Grammar) (a : AttB) : Bool :=
  match a with
  | .resp r => !(r == "") && respOk (parse_response g r)
  | _ => false

/-! ## Classifier with in-loop configuration loading (`load_esp32config`) -/

/-- Iteration of the candidate-line loop of `parse_response` recording its
configuration loads: the Python inner loop header re-evaluates
`load_esp32config().get('ESP32_RESPONSE_PATTERNS').items()` once per
candidate line processed, so the counter grows by one for every line
entered. The environment `env` is the loadable grammar: `none` models a
missing or invalid configuration file, whose `FileNotFoundError` /
`ValueError` propagates out of the classifier. -/
def loadScanLines (env : Option Grammar) : List String → Nat → ParseOutcome × Nat
  | [], n => (.noMatch, n)
  | l :: rest, n =>
    match env with
    | none => (.raised, n + 1)
    | some g =>
      match scanEntries l g with
      | some o => (o, n + 1)
      | none => loadScanLines env rest (n + 1)

/-- Model of `parse_response(response)` exactly as written in the source,
where the grammar is not a parameter but is loaded from the configuration
file inside the matching loop; the second component counts the
`load_esp32config()` invocations (configuration-file reads) performed. -/
def parse_response_load (env : Option Grammar) (response : String) : ParseOutcome × Nat :=
  if response = "" then (.emptyResponse, 0)
  else if candidateLines response = [] then (.noValidLines, 0)
  else loadScanLines env (candidateLines response) 0

/-- Claim under test for C6: the classifier performs no I/O of any kind, in
particular no configuration-file read, on any input. -/
def classifierPerformsNoLoad : Prop :=
  ∀ (env : Option Grammar) (response : String), (parse_response_load env response).2 = 0

/-! ## Timed read (`SerialCommunication._read_response`) -/

/-- Segment of a received byte chunk: a maximal decodable run (`good`) or a
run of bytes that is not valid UTF-8 (`bad`). `bytes.decode('utf-8',
errors='ignore')` keeps the good runs and silently drops the bad ones, and
a strict decode raises exactly when a `bad` segment is present. -/
inductive Seg where
  | good (s : String)
  | bad
deriving DecidableEq, Repr

/-- Model of `bytes.decode('utf-8', errors='ignore')`: concatenate the
decodable runs, dropping invalid bytes. -/
def decodeIgnore : List Seg → String
  | [] => ""
  | .good s :: rest => s ++ decodeIgnore rest
  | .bad :: rest => decodeIgnore rest

/-- Presence of bytes that are not valid UTF-8 in a chunk. -/
def hasBad : List Seg → Bool
  | [] => false
  | .good _ :: rest => hasBad rest
  | .bad :: rest => true || hasBad rest

/-- Frame-completeness test of `_read_response`: the accumulated text
contains both the literal substring `RESPONSE:` and the line terminator. -/
def frameComplete (term acc : String) : Bool :=
  pyContains acc "RESPONSE:" && pyContains acc term

/-- Model of the polling loop of `_read_response`. `fuel` is the number of
poll iterations the timeout window allows, `t` the current tick, `acc` the
accumulated text; `env t` is the chunk waiting at tick `t` (`none` when
`in_waiting` is zero). Besides the final text the model returns, for each
tick at which a chunk was read, the chunk together with the accumulated
text right after it was decoded and appended. -/
def read_response (term : String) (env : Nat → Option (List Seg)) :
    Nat → Nat → String → String × List (List Seg × String)
  | 0, _, acc => (acc, [])
  | fuel + 1, t, acc =>
    match env t with
    | none => read_response term env fuel (t + 1) acc
    | some c =>
      let acc' := acc ++ decodeIgnore c
      if frameComplete term acc' then (acc', [(c, acc')])
      else
        let res := read_response term env fuel (t + 1) acc'
        (res.1, (c, acc') :: res.2)

/-- Claim under test for C5: whenever a read chunk contains bytes that are
not valid UTF-8, accumulation restarts from the empty string, discarding
all text accumulated so far in the read cycle. -/
def readDiscardsOnInvalid : Prop :=
  ∀ (term : String) (env : Nat → Option (List Seg)) (fuel : Nat)
    (p : List Seg × String), p ∈ (read_response term env fuel 0 "").2 →
    hasBad p.1 = true → p.2 = ""

/-- Removal of the invalid bytes from a chunk before it is ever received. -/
def stripBad (c : List Seg) : List Seg :=
  c.filter (fun s => match s with | .good _ => true | .bad => false)

/-! ## Transport session lifecycle (`open_serial` / `close_serial`) -/

/-- State of one `SerialCommunication` instance for the lifecycle claims:
`handles` records every physical handle ever created by `serial.Serial(...)`
(in creation order, `true` while open), and `cur` is the index of the handle
currently bound to `self.serial_port` (`none` models `self.serial_port is
None`). -/
structure SessSt where
  handles : List Bool
  cur : Option Nat
deriving DecidableEq, Repr

/-- Freshly constructed instance: `self.serial_port = None`. -/
def sessFresh : SessSt := ⟨[], none⟩

/-- Model of `self.serial_port is not None and self.serial_port.is_open`. -/
def isOpenSt (s : SessSt) : Bool :=
  match s.cur with
  | some i => s.handles.getD i false
  | none => false

/-- Model of `open_serial`: if the port is absent or closed, construct a new
physical handle (one physical open) and bind it; otherwise do nothing. The
configured port name, DTR/RTS forcing, boot delay and buffer draining do
not affect the lifecycle state and are not modelled. -/
def open_serial (s : SessSt) : SessSt :=
  if isOpenSt s then s
  else { handles := s.handles ++ [true], cur := some s.handles.length }

/-- Number of physical opens ever performed by the instance. -/
def physOpens (s : SessSt) : Nat := s.handles.length

/-- Number of physical handles of the instance currently open. -/
def openCount (s : SessSt) : Nat := s.handles.count true

/-- Model of `close_serial` when the underlying close succeeds: close the
current handle if it is open, otherwise do nothing. -/
def close_serial (s : SessSt) : SessSt :=
  match s.cur with
  | none => s
  | some i =>
    if s.handles.getD i false then { s with handles := s.handles.set i false }
    else s

/-- Model of `close_serial` with the underlying `self.serial_port.close()`
allowed to raise (`closeRaises`): the source guards with
`if self.serial_port and self.serial_port.is_open` but wraps nothing in
`try`, so a raise from the physical close propagates to the caller. -/
def close_serial_exc (s : SessSt) (closeRaises : Bool) : Except Unit SessSt :=
  match s.cur with
  | none => .ok s
  | some i =>
    if s.handles.getD i false then
      if closeRaises then .error () else .ok { s with handles := s.handles.set i false }
    else .ok s

/-- Claim under test for C9: `close_serial` never fails the caller, even
when the underlying close reports an error. -/
def closeNeverFails : Prop :=
  ∀ (s : SessSt) (closeRaises : Bool), ∃ s2, close_serial_exc s closeRaises = .ok s2

/-- Lifecycle operations issued by a caller of the session. -/
inductive SOp where
  | openOp
  | closeOp
deriving DecidableEq, Repr

/-- Execution of a sequence of lifecycle operations from a given state. -/
def runOps (s : SessSt) : List SOp → SessSt
  | [] => s
  | .openOp :: rest => runOps (open_serial s) rest
  | .closeOp :: rest => runOps (close_serial s) rest

/-- Invariant of the lifecycle model: at most one physical handle of the
instance is open, and none is open when the session reports closed. -/
def sessInv (s : SessSt) : Prop :=
  openCount s ≤ 1 ∧ (isOpenSt s = false → openCount s = 0)

/-! ## Concrete instances used by the witnesses below -/

/-- Matcher of a pattern that never matches any line. -/
def mNever : Matcher := fun _ => none

/-- Matcher modelling a `GPIO_OUTPUT` pattern that matches exactly the line
`RESPONSE: GPIO_OUTPUT 4 OK`, capturing the pin and status groups. -/
def mGpio4 : Matcher :=
  fun l => if l = "RESPONSE: GPIO_OUTPUT 4 OK" then some ["4", "OK"] else none

/-- Matcher modelling an `ADC_INPUT` pattern that matches exactly the line
`RESPONSE: ADC_INPUT 2 512 OK`, capturing pin, value and status. -/
def mAdc : Matcher :=
  fun l => if l = "RESPONSE: ADC_INPUT 2 512 OK" then some ["2", "512", "OK"] else none

/-- Matcher of a later-declared pattern matching the same `ADC_INPUT` line
with different captures, used to show declaration order wins. -/
def mAdcLate : Matcher :=
  fun l => if l = "RESPONSE: ADC_INPUT 2 512 OK" then some ["9", "9", "ERR"] else none

/-- Matcher modelling a `GPIO_OUTPUT` pattern whose pin group captures
non-numeric text, so that `int(pin)` raises. -/
def mGpioBadPin : Matcher :=
  fun l => if l = "RESPONSE: GPIO_OUTPUT pinX OK" then some ["pinX", "OK"] else none

/-- One-entry grammar for the transaction-engine witnesses. -/
def gW : Grammar := [("GPIO_OUTPUT", mGpio4)]

/-- Transport behaviour whose first read is empty and whose later reads
deliver a complete `OK` frame. -/
def attW : Nat → AttB :=
  fun i => AttB.resp (if i = 0 then "" else "RESPONSE: GPIO_OUTPUT 4 OK")

/-- Transport behaviour raising a `SerialException` on every attempt. -/
def attSer : Nat → AttB := fun _ => AttB.serExn

/-- Transport behaviour whose reads all time out empty. -/
def attEmpty : Nat → AttB := fun _ => AttB.resp ""

/-- Chunk environment delivering valid text at tick 0 and invalid bytes at
tick 1. -/
def envBad : Nat → Option (List Seg) :=
  fun t => if t = 0 then some [Seg.good "AB"] else if t = 1 then some [Seg.bad] else none

/-! ## Supporting lemmas on the classifier -/

/-- Candidate selection on the empty buffer is empty. -/
theorem candidateLines_empty : candidateLines "" = [] := rfl

/-- Grammar loop on a line matched by no entry: no return, no raise. -/
theorem scanEntries_of_all_none (line : String) :
    ∀ g : Grammar, (∀ e ∈ g, e.2 line = none) → scanEntries line g = none := by
  intro g
  induction g with
  | nil => intro _; rfl
  | cons p rest ih =>
    intro h
    obtain ⟨name, m⟩ := p
    have hm : m line = none := h (name, m) (List.mem_cons_self _ _)
    simp only [scanEntries, hm]
    exact ih fun e he => h e (List.mem_cons_of_mem _ he)

/-- Candidate-line loop when no line matches any entry: the source falls
through to the final return site, i.e. the `NoMatch` failure. -/
theorem scanLines_of_all_none (g : Grammar) :
    ∀ ls : List String, (∀ l ∈ ls, scanEntries l g = none) → scanLines g ls = .noMatch := by
  intro ls
  induction ls with
  | nil => intro _; rfl
  | cons l rest ih =>
    intro h
    have hl : scanEntries l g = none := h l (List.mem_cons_self _ _)
    simp only [scanLines, hl]
    exact ih fun x hx => h x (List.mem_cons_of_mem _ hx)

/-- Grammar loop with a first matching entry: entries declared before it do
not match, it matches with groups that dispatch cleanly, and the loop
returns its Parsed Response no matter what comes after it. -/
theorem scanEntries_first (line : String) (e : String × Matcher) (g2 : Grammar)
    (groups : List String) (r : ParsedResponse)
    (hmatch : e.2 line = some groups) (hdisp : dispatch e.1 groups = .ok r) :
    ∀ g1 : Grammar, (∀ e2 ∈ g1, e2.2 line = none) →
      scanEntries line (g1 ++ e :: g2) = some (.parsed r) := by
  intro g1
  induction g1 with
  | nil =>
    intro _
    obtain ⟨name, m⟩ := e
    have hm : m line = some groups := hmatch
    have hd : dispatch name groups = .ok r := hdisp
    simp only [List.nil_append, scanEntries, hm, hd]
  | cons p rest ih =>
    intro h
    obtain ⟨name, m⟩ := p
    have hm : m line = none := h (name, m) (List.mem_cons_self _ _)
    simp only [List.cons_append, scanEntries, hm]
    exact ih fun e2 he => h e2 (List.mem_cons_of_mem _ he)

/-- Candidate-line loop skips leading lines on which the grammar loop
neither returns nor raises. -/
theorem scanLines_skip (g : Grammar) (rest : List String) :
    ∀ ls1 : List String, (∀ l ∈ ls1, scanEntries l g = none) →
      scanLines g (ls1 ++ rest) = scanLines g rest := by
  intro ls1
  induction ls1 with
  | nil => intro _; rfl
  | cons l t ih =>
    intro h
    have hl : scanEntries l g = none := h l (List.mem_cons_self _ _)
    simp only [List.cons_append, scanLines, hl]
    exact ih fun x hx => h x (List.mem_cons_of_mem _ hx)

/-! ## C2 — first matching (line, entry) pair determines the result -/

/-- C2: classification scans candidate lines in their original order and,
for each line, grammar entries in declaration order; the first (line, entry)
pair whose pattern matches — here: no earlier candidate line matches any
entry, and no earlier-declared entry matches this line — determines the
returned Parsed Response, and nothing declared or received after that pair
(later entries `g2`, later lines `ls2`) influences the result. In
particular, when two entries match the same line the earlier-declared one
wins. The matched pair is assumed to dispatch cleanly (its type name is one
of the seven handled names and its groups coerce), which is the claim's
premise that a Parsed Response is returned at all. -/
theorem c2_first_match_wins (g1 g2 : Grammar) (e : String × Matcher)
    (ls1 ls2 : List String) (line buffer : String) (groups : List String) (r : ParsedResponse)
    (hcand : candidateLines buffer = ls1 ++ line :: ls2)
    (hmatch : e.2 line = some groups)
    (hdisp : dispatch e.1 groups = .ok r)
    (hpriorL : ∀ l2 ∈ ls1, ∀ e2 ∈ (g1 ++ e :: g2), e2.2 l2 = none)
    (hpriorE : ∀ e2 ∈ g1, e2.2 line = none) :
    parse_response (g1 ++ e :: g2) buffer = .parsed r := by
  have hne : buffer ≠ "" := by
    intro hb
    rw [hb, candidateLines_empty] at hcand
    exact List.cons_ne_nil line ls2 (List.append_eq_nil.mp hcand.symm).2
  have hcne : candidateLines buffer ≠ [] := by
    rw [hcand]
    cases ls1 <;> simp
  unfold parse_response
  rw [if_neg hne, if_neg hcne, hcand]
  rw [scanLines_skip (g1 ++ e :: g2) (line :: ls2) ls1
    (fun l2 hl2 => scanEntries_of_all_none l2 _ (hpriorL l2 hl2))]
  simp only [scanLines, scanEntries_first line e g2 groups r hmatch hdisp g1 hpriorE]

/-- Witness for C2 at the concrete buffer
`junk\nRESPONSE: NOISE\nRESPONSE: ADC_INPUT 2 512 OK\n` and a grammar with a
non-matching earlier entry and a matching later duplicate entry: the result
is the Parsed Response of the first matching pair. -/
theorem c2_first_match_wins_witness :
    (candidateLines "junk\nRESPONSE: NOISE\nRESPONSE: ADC_INPUT 2 512 OK\n"
        = ["RESPONSE: NOISE"] ++ "RESPONSE: ADC_INPUT 2 512 OK" :: [])
    ∧ mAdc "RESPONSE: ADC_INPUT 2 512 OK" = some ["2", "512", "OK"]
    ∧ dispatch "ADC_INPUT" ["2", "512", "OK"] = .ok (.adcInput 2 512 "OK")
    ∧ (∀ l2 ∈ ["RESPONSE: NOISE"],
        ∀ e2 ∈ ([("GPIO_OUTPUT", mNever)] ++ ("ADC_INPUT", mAdc) :: [("ADC_INPUT", mAdcLate)]),
        e2.2 l2 = none)
    ∧ (∀ e2 ∈ [("GPIO_OUTPUT", mNever)], e2.2 "RESPONSE: ADC_INPUT 2 512 OK" = none)
    ∧ parse_response ([("GPIO_OUTPUT", mNever)] ++ ("ADC_INPUT", mAdc) :: [("ADC_INPUT", mAdcLate)])
        "junk\nRESPONSE: NOISE\nRESPONSE: ADC_INPUT 2 512 OK\n" = .parsed (.adcInput 2 512 "OK") :=
  ⟨by decide, by decide, by decide, by decide, by decide,
    c2_first_match_wins [("GPIO_OUTPUT", mNever)] [("ADC_INPUT", mAdcLate)] ("ADC_INPUT", mAdc)
      ["RESPONSE: NOISE"] [] "RESPONSE: ADC_INPUT 2 512 OK"
      "junk\nRESPONSE: NOISE\nRESPONSE: ADC_INPUT 2 512 OK\n" ["2", "512", "OK"]
      (.adcInput 2 512 "OK") (by decide) (by decide) (by decide) (by decide) (by decide)⟩

/-! ## C4 — candidate selection and the two failure modes -/

/-- C4: for every non-empty raw buffer, the classifier retains exactly the
stripped lines beginning with the literal prefix `RESPONSE: ` (token plus a
single space); when no such line exists the call fails with the
`NoValidLines` failure (the "No valid response lines found" `return None`
site), and when candidate lines exist but none matches any grammar entry it
fails with the `NoMatch` failure (the final "No valid response matched."
`return None` site) — in both cases a failure, not a Parsed Response. -/
theorem c4_failure_modes (g : Grammar) (buffer : String) (hne : buffer ≠ "") :
    (∀ l, l ∈ candidateLines buffer ↔
      ∃ raw, raw ∈ pyLines buffer ∧ pyStrip raw = l ∧ pyStartsWith l "RESPONSE: " = true)
    ∧ (candidateLines buffer = [] → parse_response g buffer = .noValidLines)
    ∧ (candidateLines buffer ≠ [] →
        (∀ l ∈ candidateLines buffer, ∀ e ∈ g, e.2 l = none) →
        parse_response g buffer = .noMatch) := by
  refine ⟨?_, ?_, ?_⟩
  · intro l
    simp only [candidateLines, List.mem_filter, List.mem_map]
    constructor
    · rintro ⟨⟨raw, hraw, hstrip⟩, hpre⟩
      exact ⟨raw, hraw, hstrip, hpre⟩
    · rintro ⟨raw, hraw, hstrip, hpre⟩
      exact ⟨⟨raw, hraw, hstrip⟩, hpre⟩
  · intro hc
    unfold parse_response
    rw [if_neg hne, if_pos hc]
  · intro hc hall
    unfold parse_response
    rw [if_neg hne, if_neg hc]
    exact scanLines_of_all_none g _ fun l hl => scanEntries_of_all_none l g (hall l hl)

/-- Witness for C4: a buffer with no `RESPONSE: ` line fails with
`NoValidLines`, and a buffer whose only candidate line matches no entry
fails with `NoMatch`. -/
theorem c4_failure_modes_witness :
    ("hello\nworld" ≠ "" ∧ candidateLines "hello\nworld" = []
      ∧ parse_response [("GPIO_OUTPUT", mNever)] "hello\nworld" = .noValidLines)
    ∧ ("RESPONSE: weird" ≠ "" ∧ candidateLines "RESPONSE: weird" ≠ []
      ∧ parse_response [("GPIO_OUTPUT", mNever)] "RESPONSE: weird" = .noMatch) :=
  ⟨⟨by decide, by decide,
      (c4_failure_modes [("GPIO_OUTPUT", mNever)] "hello\nworld" (by decide)).2.1 (by decide)⟩,
    ⟨by decide, by decide,
      (c4_failure_modes [("GPIO_OUTPUT", mNever)] "RESPONSE: weird" (by decide)).2.2
        (by decide) (by decide)⟩⟩

/-! ## C7 — failed field coercion raises out of the classifier -/

/-- C7 (evaluation at the failing input): on the line
`RESPONSE: GPIO_OUTPUT pinX OK`, matched by a `GPIO_OUTPUT` entry whose pin
group captures the non-numeric text `pinX`, the `int(pin)` coercion raises
`ValueError` and the exception propagates out of `parse_response` — the
classifier does not turn it into a classification failure for that line,
contradicting the specified behaviour (the engine only recovers via its
blanket `except Exception`, returning `False` with no retry). -/
theorem c7_coercion_raises_out_of_classifier :
    parse_response [("GPIO_OUTPUT", mGpioBadPin)] "RESPONSE: GPIO_OUTPUT pinX OK"
      = .raised
    ∧ dispatch "GPIO_OUTPUT" ["pinX", "OK"] = .raised := by
  constructor <;> decide

/-! ## C6 — the classifier loads configuration (performs I/O) -/

/-- C6 (counterexample): the claim that classification performs no I/O of
any kind is false — already on the single-candidate buffer `RESPONSE: x`
with the empty loaded grammar, `parse_response` invokes
`load_esp32config()` (a configuration-file read) once. -/
theorem c6_no_io_counterexample : ¬ classifierPerformsNoLoad := by
  intro h
  exact absurd (h (some []) "RESPONSE: x") (by decide)

/-- Number of configuration loads equals the number of candidate lines
entered, so the counting classifier refines the pure one. -/
theorem loadScanLines_fst (g : Grammar) :
    ∀ (ls : List String) (n : Nat), (loadScanLines (some g) ls n).1 = scanLines g ls := by
  intro ls
  induction ls with
  | nil => intro n; rfl
  | cons l rest ih =>
    intro n
    cases h : scanEntries l g <;> simp only [loadScanLines, scanLines, h, ih]

/-- Load counter of the candidate-line loop never decreases. -/
theorem loadScanLines_snd_ge (env : Option Grammar) :
    ∀ (ls : List String) (n : Nat), n ≤ (loadScanLines env ls n).2 := by
  intro ls
  induction ls with
  | nil => intro n; exact Nat.le_refl n
  | cons l rest ih =>
    intro n
    cases env with
    | none => exact Nat.le_succ n
    | some g =>
      cases h : scanEntries l g with
      | some o => simp only [loadScanLines, h]; exact Nat.le_succ n
      | none =>
        simp only [loadScanLines, h]
        exact Nat.le_trans (Nat.le_succ n) (ih (n + 1))

/-- C6 (amended): classification is deterministic given identical input
text and identical configuration-file content — with a fixed loaded grammar
it computes exactly the pure classifier — but it does perform I/O: whenever
at least one candidate line exists, at least one configuration-file load
happens during classification (in fact one per candidate line entered). -/
theorem c6_deterministic_but_loads (g : Grammar) (response : String) :
    (parse_response_load (some g) response).1 = parse_response g response
    ∧ (response ≠ "" → candidateLines response ≠ [] →
        0 < (parse_response_load (some g) response).2) := by
  constructor
  · unfold parse_response_load parse_response
    by_cases h1 : response = ""
    · rw [if_pos h1, if_pos h1]
    · rw [if_neg h1, if_neg h1]
      by_cases h2 : candidateLines response = []
      · rw [if_pos h2, if_pos h2]
      · rw [if_neg h2, if_neg h2]
        exact loadScanLines_fst g (candidateLines response) 0
  · intro h1 h2
    unfold parse_response_load
    rw [if_neg h1, if_neg h2]
    cases hc : candidateLines response with
    | nil => exact absurd hc h2
    | cons l rest =>
      cases henv : scanEntries l g with
      | some o => simp only [loadScanLines, henv]; exact Nat.zero_lt_succ 0
      | none =>
        simp only [loadScanLines, henv]
        exact Nat.lt_of_lt_of_le (Nat.zero_lt_succ 0) (loadScanLines_snd_ge (some g) rest 1)

/-- Witness for C6 (amended) at the buffer `RESPONSE: x` and the empty
grammar: the counting classifier agrees with the pure one and performs a
positive number of configuration loads. -/
theorem c6_deterministic_but_loads_witness :
    ((parse_response_load (some []) "RESPONSE: x").1 = parse_response [] "RESPONSE: x")
    ∧ ("RESPONSE: x" ≠ "" ∧ candidateLines "RESPONSE: x" ≠ []
        ∧ 0 < (parse_response_load (some []) "RESPONSE: x").2) :=
  ⟨(c6_deterministic_but_loads [] "RESPONSE: x").1,
    by decide, by decide,
    (c6_deterministic_but_loads [] "RESPONSE: x").2 (by decide) (by decide)⟩

/-! ## C5 — invalid UTF-8 during the timed read -/

/-- C5 (counterexample): the claim that invalid UTF-8 clears the buffer and
restarts accumulation from the empty string is false — with valid text `AB`
received at tick 0 and invalid bytes at tick 1, the accumulated text right
after the invalid chunk is still `AB`, not the empty string. The
`errors='ignore'` decode never raises, so the clearing branch of
`_read_response` is unreachable and previously accumulated text is kept. -/
theorem c5_discard_counterexample : ¬ readDiscardsOnInvalid := by
  intro h
  exact absurd (h "\n" envBad 3 ([Seg.bad], "AB") (by decide) (by decide)) (by decide)

/-- Lenient decoding drops exactly the invalid segments. -/
theorem decodeIgnore_stripBad : ∀ c : List Seg, decodeIgnore (stripBad c) = decodeIgnore c := by
  intro c
  induction c with
  | nil => rfl
  | cons s rest ih =>
    cases s with
    | good a => simp only [stripBad, List.filter_cons_of_pos, decodeIgnore] at ih ⊢; rw [ih]
    | bad => simp only [stripBad, List.filter_cons_of_neg, decodeIgnore] at ih ⊢; exact ih

/-- C5 (amended): bytes that are not valid UTF-8 are silently dropped by
the lenient `errors='ignore'` decode — the timed read behaves exactly as if
the invalid bytes had never been received: the returned text and the whole
accumulation history are unchanged when every invalid segment is removed
from the incoming chunks. In particular accumulated text is retained, the
input buffer is not cleared, and the read is not aborted. -/
theorem c5_invalid_bytes_dropped (term : String) (env : Nat → Option (List Seg)) :
    ∀ (fuel t : Nat) (acc : String),
      (read_response term (fun u => (env u).map stripBad) fuel t acc).1
        = (read_response term env fuel t acc).1
      ∧ ((read_response term (fun u => (env u).map stripBad) fuel t acc).2.map Prod.snd)
        = ((read_response term env fuel t acc).2.map Prod.snd) := by
  intro fuel
  induction fuel with
  | zero => intro t acc; exact ⟨rfl, rfl⟩
  | succ n ih =>
    intro t acc
    cases henv : env t with
    | none => simp only [read_response, henv, Option.map_none]; exact ih (t + 1) acc
    | some c =>
      simp only [read_response, henv, Option.map_some']
      rw [decodeIgnore_stripBad c]
      by_cases hfc : frameComplete term (acc ++ decodeIgnore c) = true
      · simp [hfc]
      · rw [Bool.not_eq_true] at hfc
        simp only [hfc, Bool.false_eq_true, if_false, List.map_cons]
        obtain ⟨h1, h2⟩ := ih (t + 1) (acc ++ decodeIgnore c)
        exact ⟨h1, by rw [h2]⟩

/-! ## C9 — close propagates an error from the physical close -/

/-- C9 (counterexample): the claim that `close_serial` never fails the
caller is false — on a session whose handle is open, an error raised by the
underlying `self.serial_port.close()` propagates, because the source has no
`try`/`except` around the close. -/
theorem c9_close_counterexample : ¬ closeNeverFails := by
  intro h
  obtain ⟨s2, hs⟩ := h ⟨[true], some 0⟩ true
  have hv : close_serial_exc ⟨[true], some 0⟩ true = .error () := rfl
  rw [hv] at hs
  exact Except.noConfusion hs

/-- Closing the current handle leaves it closed. -/
theorem getD_set_false_self : ∀ (l : List Bool) (i : Nat), (l.set i false).getD i false = false := by
  intro l
  induction l with
  | nil => intro i; rfl
  | cons b t ih =>
    intro i
    cases i with
    | zero => rfl
    | succ j => simpa only [List.set_cons_succ, List.getD_cons_succ] using ih j

/-- C9 (amended): `close_serial` closes the physical line if open and is a
no-op when the session is not open; however, when the underlying close
reports an error the exception propagates to the caller — `close_serial`
contains no error handling, so it does fail the caller in that case. -/
theorem c9_close_behaviour (s : SessSt) (closeRaises : Bool) :
    (isOpenSt s = false → close_serial_exc s closeRaises = .ok s)
    ∧ (isOpenSt s = true → closeRaises = false →
        close_serial_exc s closeRaises = .ok (close_serial s)
        ∧ isOpenSt (close_serial s) = false)
    ∧ (isOpenSt s = true → closeRaises = true → close_serial_exc s closeRaises = .error ()) := by
  obtain ⟨handles, cur⟩ := s
  cases cur with
  | none =>
    refine ⟨fun _ => rfl, fun h _ => absurd h (by simp [isOpenSt]), fun h _ => absurd h (by simp [isOpenSt])⟩
  | some i =>
    cases hgd : handles.getD i false with
    | false =>
      refine ⟨fun _ => ?_, fun h _ => ?_, fun h _ => ?_⟩
      · simp only [close_serial_exc, hgd, Bool.false_eq_true, if_false]
      · exact absurd (by simpa only [isOpenSt, hgd] using h) (by simp)
      · exact absurd (by simpa only [isOpenSt, hgd] using h) (by simp)
    | true =>
      refine ⟨fun h => ?_, fun _ hb => ?_, fun _ hb => ?_⟩
      · exact absurd (by simpa only [isOpenSt, hgd] using h) (by simp)
      · subst hb
        constructor
        · simp only [close_serial_exc, close_serial]
          rw [if_pos hgd, if_pos hgd]
          simp
        · simp only [close_serial]
          rw [if_pos hgd]
          simp only [isOpenSt]
          exact getD_set_false_self handles i
      · subst hb
        simp only [close_serial_exc]
        rw [if_pos hgd]
        simp

/-- Witness for C9 (amended): a fresh (not open) session is a no-op even
with a faulty physical close, and an open session with a faulty physical
close propagates the error. -/
theorem c9_close_behaviour_witness :
    (isOpenSt sessFresh = false ∧ close_serial_exc sessFresh true = .ok sessFresh)
    ∧ (isOpenSt ⟨[true], some 0⟩ = true
        ∧ close_serial_exc ⟨[true], some 0⟩ true = .error ()) :=
  ⟨⟨by decide, (c9_close_behaviour sessFresh true).1 (by decide)⟩,
    ⟨by decide, (c9_close_behaviour ⟨[true], some 0⟩ true).2.2 (by decide) rfl⟩⟩

/-! ## C8 — open is idempotent and at most one handle is open -/

/-- Handle freshly appended by a physical open is the open one. -/
theorem getD_append_length : ∀ (l : List Bool) (b : Bool), (l ++ [b]).getD l.length false = b := by
  intro l b
  induction l with
  | nil => rfl
  | cons x t ih =>
    simpa only [List.cons_append, List.getD_cons_succ, List.length_cons] using ih

/-- Session is always open right after `open_serial`. -/
theorem isOpenSt_open (s : SessSt) : isOpenSt (open_serial s) = true := by
  by_cases h : isOpenSt s = true
  · simp only [open_serial]
    rw [if_pos h]
    exact h
  · simp only [open_serial]
    rw [if_neg h]
    simp only [isOpenSt]
    exact getD_append_length s.handles true

/-- Closing an open handle decreases the open-handle count by one. -/
theorem count_true_set_false :
    ∀ (l : List Bool) (i : Nat), l.getD i false = true →
      (l.set i false).count true + 1 = l.count true := by
  intro l
  induction l with
  | nil => intro i h; simp at h
  | cons b t ih =>
    intro i h
    cases i with
    | zero =>
      have hb : b = true := by simpa using h
      subst hb
      simp [List.count_cons]
    | succ j =>
      have hj := ih j (by simpa using h)
      cases b <;> simp only [List.set_cons_succ, List.count_cons] <;> simp <;> omega

/-- Preservation of the lifecycle invariant by `open_serial`. -/
theorem sessInv_open (s : SessSt) (h : sessInv s) : sessInv (open_serial s) := by
  by_cases hio : isOpenSt s = true
  · simp only [open_serial]
    rw [if_pos hio]
    exact h
  · have hf : isOpenSt s = false := by revert hio; cases isOpenSt s <;> simp
    have h0 : openCount s = 0 := h.2 hf
    constructor
    · simp only [open_serial]
      rw [if_neg hio]
      have h0' : s.handles.count true = 0 := h0
      show (s.handles ++ [true]).count true ≤ 1
      simp [List.count_append, h0']
    · intro habs
      exact absurd ((isOpenSt_open s).symm.trans habs) (by simp)

/-- Preservation of the lifecycle invariant by `close_serial`. -/
theorem sessInv_close (s : SessSt) (h : sessInv s) : sessInv (close_serial s) := by
  obtain ⟨handles, cur⟩ := s
  cases cur with
  | none => exact h
  | some i =>
    cases hgd : handles.getD i false with
    | false =>
      have hc : close_serial ⟨handles, some i⟩ = ⟨handles, some i⟩ := by
        simp only [close_serial]
        rw [if_neg (by rw [hgd]; simp)]
      rw [hc]
      exact h
    | true =>
      have hc : close_serial ⟨handles, some i⟩ = ⟨handles.set i false, some i⟩ := by
        simp only [close_serial]
        rw [if_pos hgd]
      rw [hc]
      have hcount := count_true_set_false handles i hgd
      have h1 : handles.count true ≤ 1 := h.1
      constructor
      · show (handles.set i false).count true ≤ 1
        omega
      · intro _
        show (handles.set i false).count true = 0
        omega

/-- Preservation of the lifecycle invariant along any operation sequence. -/
theorem sessInv_runOps : ∀ (ops : List SOp) (s : SessSt), sessInv s → sessInv (runOps s ops) := by
  intro ops
  induction ops with
  | nil => intro s h; exact h
  | cons op rest ih =>
    intro s h
    cases op with
    | openOp => exact ih _ (sessInv_open s h)
    | closeOp => exact ih _ (sessInv_close s h)

/-- C8: `open_serial` called while the session is already open is a no-op;
consequently it is idempotent, two consecutive calls from a closed session
perform exactly one physical open, and along every sequence of open/close
operations from a fresh instance at most one physical handle is open at any
time. -/
theorem c8_open_idempotent :
    (∀ s : SessSt, isOpenSt s = true → open_serial s = s)
    ∧ (∀ s : SessSt, open_serial (open_serial s) = open_serial s)
    ∧ (∀ s : SessSt, isOpenSt s = false →
        physOpens (open_serial (open_serial s)) = physOpens s + 1)
    ∧ (∀ ops : List SOp, openCount (runOps sessFresh ops) ≤ 1) := by
  have hnoop : ∀ s : SessSt, isOpenSt s = true → open_serial s = s := by
    intro s h
    simp only [open_serial]
    rw [if_pos h]
  refine ⟨hnoop, ?_, ?_, ?_⟩
  · intro s
    exact hnoop _ (isOpenSt_open s)
  · intro s h
    rw [hnoop _ (isOpenSt_open s)]
    simp only [open_serial]
    rw [if_neg (by rw [h]; simp)]
    simp [physOpens]
  · intro ops
    exact (sessInv_runOps ops sessFresh ⟨by simp [openCount, sessFresh], fun _ => by simp [openCount, sessFresh]⟩).1

/-- Witness for C8: an open session is untouched by `open_serial`, a fresh
session gets exactly one physical open from two consecutive calls, and a
concrete open/close/open run keeps at most one handle open. -/
theorem c8_open_idempotent_witness :
    (isOpenSt ⟨[true], some 0⟩ = true ∧ open_serial ⟨[true], some 0⟩ = ⟨[true], some 0⟩)
    ∧ (isOpenSt sessFresh = false
        ∧ physOpens (open_serial (open_serial sessFresh)) = physOpens sessFresh + 1)
    ∧ openCount (runOps sessFresh [SOp.openOp, SOp.closeOp, SOp.openOp]) ≤ 1 :=
  ⟨⟨by decide, c8_open_idempotent.1 _ (by decide)⟩,
    ⟨by decide, c8_open_idempotent.2.2.1 _ (by decide)⟩,
    c8_open_idempotent.2.2.2 [SOp.openOp, SOp.closeOp, SOp.openOp]⟩

/-! ## C1 — success is exactly some attempt classified with status OK -/

/-- Final attempt with a non-raising classification returns exactly the
attempt-success bit: non-empty read and `OK` status. -/
theorem attemptLast_resp_fst (g : Grammar) (cmd : String) (r : String)
    (hnr : parse_response g r ≠ ParseOutcome.raised) :
    (attemptLast g cmd (AttB.resp r)).1 = attemptSuccess g (AttB.resp r) := by
  simp only [attemptLast, attemptSuccess]
  by_cases hr : r = ""
  · subst hr
    simp
  · rw [if_neg hr, if_neg hnr]
    cases hro : respOk (parse_response g r) <;> simp [hro, hr]

/-- Recursion invariant for C1: with `rem = maxR - rc` retries left and all
attempts in budget delivering reads with non-raising classification, the
engine returns `true` exactly when some attempt between `rc` and `maxR`
succeeds. -/
theorem c1_aux (g : Grammar) (maxR : Nat) (δ : ℚ) (cmd : String) (att : Nat → AttB) :
    ∀ (rem rc : Nat), rem = maxR - rc → rc ≤ maxR →
      (∀ i, rc ≤ i → i ≤ maxR →
        ∃ r, att i = AttB.resp r ∧ parse_response g r ≠ ParseOutcome.raised) →
      ((send_command_go g δ cmd att rem rc).1 = true
        ↔ ∃ i, rc ≤ i ∧ i ≤ maxR ∧ attemptSuccess g (att i) = true) := by
  intro rem
  induction rem with
  | zero =>
    intro rc hrem hle hclean
    obtain ⟨r, hat, hnr⟩ := hclean rc (Nat.le_refl rc) hle
    have hgo : (send_command_go g δ cmd att 0 rc).1 = attemptSuccess g (att rc) := by
      simp only [send_command_go]
      rw [hat]
      exact attemptLast_resp_fst g cmd r hnr
    rw [hgo]
    constructor
    · intro h
      exact ⟨rc, Nat.le_refl rc, hle, h⟩
    · rintro ⟨i, h1, h2, h3⟩
      have hi : i = rc := by omega
      subst hi
      exact h3
  | succ n ih =>
    intro rc hrem hle hclean
    have hlt : rc < maxR := by omega
    obtain ⟨r, hat, hnr⟩ := hclean rc (Nat.le_refl rc) hle
    have hiff := ih (rc + 1) (by omega) (by omega)
      (fun i h1 h2 => hclean i (by omega) h2)
    have hskip : attemptSuccess g (att rc) = false →
        ((∃ i, rc + 1 ≤ i ∧ i ≤ maxR ∧ attemptSuccess g (att i) = true)
          ↔ ∃ i, rc ≤ i ∧ i ≤ maxR ∧ attemptSuccess g (att i) = true) := by
      intro hfail
      constructor
      · rintro ⟨i, h1, h2, h3⟩
        exact ⟨i, by omega, h2, h3⟩
      · rintro ⟨i, h1, h2, h3⟩
        rcases Nat.eq_or_lt_of_le h1 with heq | hlt2
        · rw [← heq] at h3
          rw [h3] at hfail
          exact absurd hfail (by simp)
        · exact ⟨i, by omega, h2, h3⟩
    simp only [send_command_go, hat]
    by_cases hr : r = ""
    · rw [if_pos hr]
      have hfail : attemptSuccess g (att rc) = false := by
        rw [hat, hr]
        simp [attemptSuccess]
      show (send_command_go g δ cmd att n (rc + 1)).1 = true
        ↔ ∃ i, rc ≤ i ∧ i ≤ maxR ∧ attemptSuccess g (att i) = true
      exact hiff.trans (hskip hfail)
    · rw [if_neg hr, if_neg hnr]
      by_cases hro : respOk (parse_response g r) = true
      · rw [if_pos hro]
        refine ⟨fun _ => ⟨rc, Nat.le_refl rc, Nat.le_of_lt hlt, ?_⟩, fun _ => rfl⟩
        rw [hat]
        simp [attemptSuccess, hr, hro]
      · rw [if_neg hro]
        have hfail : attemptSuccess g (att rc) = false := by
          rw [hat]
          simp only [attemptSuccess]
          rw [Bool.not_eq_true] at hro
          simp [hro]
        show (send_command_go g δ cmd att n (rc + 1)).1 = true
          ↔ ∃ i, rc ≤ i ∧ i ≤ maxR ∧ attemptSuccess g (att i) = true
        exact hiff.trans (hskip hfail)

/-- C1: `send_command` returns `True` if and only if, on some attempt within
the retry budget (`retry_count` from `0` to `max_retries`), the timed read
produced a non-empty response whose classification succeeded with status
token exactly `OK`; otherwise — any other status token, classification
failure, or an empty read on the final attempt — it returns `False`. The
hypothesis restricts to transcripts in which every attempt in budget is a
completed read whose classification does not raise (transport faults are
the subject of C10, a raising coercion the subject of C7). -/
theorem c1_send_ok_iff (g : Grammar) (maxR : Nat) (δ : ℚ) (cmd : String) (att : Nat → AttB)
    (hclean : ∀ i, i ≤ maxR →
      ∃ r, att i = AttB.resp r ∧ parse_response g r ≠ ParseOutcome.raised) :
    ((send_command g maxR δ cmd att 0).1 = true
      ↔ ∃ i, i ≤ maxR ∧ attemptSuccess g (att i) = true) := by
  have h := c1_aux g maxR δ cmd att (maxR - 0) 0 rfl (Nat.zero_le maxR)
    (fun i _ h2 => hclean i h2)
  simp only [send_command]
  rw [h]
  constructor
  · rintro ⟨i, _, h2, h3⟩
    exact ⟨i, h2, h3⟩
  · rintro ⟨i, h2, h3⟩
    exact ⟨i, Nat.zero_le i, h2, h3⟩

/-- Witness for C1: with one retry allowed, an empty first read and an
`OK`-classified second read, `send_command` returns `True`, and the
equivalence holds at this concrete transcript. -/
theorem c1_send_ok_iff_witness :
    (∀ i, i ≤ 1 → ∃ r, attW i = AttB.resp r ∧ parse_response gW r ≠ ParseOutcome.raised)
    ∧ ((send_command gW 1 1 "gpio" attW 0).1 = true
        ↔ ∃ i, i ≤ 1 ∧ attemptSuccess gW (attW i) = true)
    ∧ (send_command gW 1 1 "gpio" attW 0).1 = true := by
  have hclean : ∀ i, i ≤ 1 →
      ∃ r, attW i = AttB.resp r ∧ parse_response gW r ≠ ParseOutcome.raised := by
    intro i _
    refine ⟨if i = 0 then "" else "RESPONSE: GPIO_OUTPUT 4 OK", rfl, ?_⟩
    by_cases h : i = 0
    · rw [if_pos h]
      decide
    · rw [if_neg h]
      decide
  exact ⟨hclean, c1_send_ok_iff gW 1 1 "gpio" attW hclean, by decide⟩

/-! ## C3 — all-empty reads: exactly N+1 writes separated by retry delays -/

/-- Recursion invariant for C3: with `rem` retries left and every read
empty, the engine fails and its trace is `rem` write-sleep rounds followed
by the final write. -/
theorem c3_aux (g : Grammar) (δ : ℚ) (cmd : String) (att : Nat → AttB)
    (hempty : ∀ i, att i = AttB.resp "") :
    ∀ (rem rc : Nat),
      send_command_go g δ cmd att rem rc
        = (false, (List.replicate rem [Ev.write cmd, Ev.sleep δ]).flatten ++ [Ev.write cmd]) := by
  intro rem
  induction rem with
  | zero =>
    intro rc
    simp [send_command_go, attemptLast, hempty rc]
  | succ n ih =>
    intro rc
    simp only [send_command_go, hempty rc, if_pos]
    rw [ih (rc + 1)]
    simp [List.replicate_succ]

/-- Write events in a trace of `k` write-sleep rounds plus a final write. -/
theorem count_write_rounds (cmd : String) (δ : ℚ) :
    ∀ k : Nat, ((List.replicate k [Ev.write cmd, Ev.sleep δ]).flatten
      ++ [Ev.write cmd]).count (Ev.write cmd) = k + 1 := by
  intro k
  induction k with
  | zero => simp
  | succ n ih =>
    rw [List.replicate_succ, List.flatten_cons, List.append_assoc, List.count_append, ih]
    simp [List.count_cons]
    omega

/-- C3: for every command and `max_retries = N`, if every timed read
returns empty text then `send_command` makes exactly `N + 1` write attempts
— its event trace is `N` rounds of a write followed by a `retry_delay`
sleep, then the final write — and returns `False` after the last attempt
with no further writes. -/
theorem c3_empty_reads (g : Grammar) (maxR : Nat) (δ : ℚ) (cmd : String) (att : Nat → AttB)
    (hempty : ∀ i, att i = AttB.resp "") :
    send_command g maxR δ cmd att 0
      = (false, (List.replicate maxR [Ev.write cmd, Ev.sleep δ]).flatten ++ [Ev.write cmd])
    ∧ (send_command g maxR δ cmd att 0).2.count (Ev.write cmd) = maxR + 1 := by
  have h : send_command g maxR δ cmd att 0
      = (false, (List.replicate maxR [Ev.write cmd, Ev.sleep δ]).flatten ++ [Ev.write cmd]) := by
    simp only [send_command, Nat.sub_zero]
    exact c3_aux g δ cmd att hempty maxR 0
  refine ⟨h, ?_⟩
  rw [h]
  exact count_write_rounds cmd δ maxR

/-- Witness for C3: two retries, all reads empty — five trace events, three
of them writes. -/
theorem c3_empty_reads_witness :
    (∀ i, attEmpty i = AttB.resp "")
    ∧ send_command gW 2 1 "PING" attEmpty 0
        = (false, (List.replicate 2 [Ev.write "PING", Ev.sleep 1]).flatten ++ [Ev.write "PING"])
    ∧ (send_command gW 2 1 "PING" attEmpty 0).2.count (Ev.write "PING") = 2 + 1 :=
  ⟨fun _ => rfl, (c3_empty_reads gW 2 1 "PING" attEmpty fun _ => rfl).1,
    (c3_empty_reads gW 2 1 "PING" attEmpty fun _ => rfl).2⟩

/-! ## C10 — send_command is total at its public boundary -/

/-- C10: for every command, retry count and transport behaviour — including
`SerialException`s and arbitrary other exceptions raised during the open,
clear, write or read steps, and a `ValueError` raised by the classifier —
`send_command` returns exactly the boolean obtained by running its `try`
body and mapping every escaped exception to `False`; no exception
propagates to the caller. A serial-level exception yields the
close-then-reopen attempt of `_handle_serial_exception` and a `False`
return for that call, and every uncaught-body exception yields `False`. -/
theorem c10_total_boundary (g : Grammar) (maxR : Nat) (δ : ℚ) (cmd : String)
    (att : Nat → AttB) (rc : Nat) :
    ((send_command g maxR δ cmd att rc).1 = pyCatchAll (send_body g maxR δ cmd att rc))
    ∧ (att rc = AttB.serExn → send_command g maxR δ cmd att rc = (false, [Ev.closeReopen]))
    ∧ (∀ e, send_body g maxR δ cmd att rc = .error e →
        (send_command g maxR δ cmd att rc).1 = false) := by
  have h1 : (send_command g maxR δ cmd att rc).1 = pyCatchAll (send_body g maxR δ cmd att rc) := by
    simp only [send_command]
    cases hrem : maxR - rc with
    | zero =>
      have hnlt : ¬rc < maxR := by omega
      cases hat : att rc with
      | serExn => simp [send_command_go, send_body, attemptLast, pyCatchAll, hat]
      | genExn => simp [send_command_go, send_body, attemptLast, pyCatchAll, hat]
      | resp r =>
        simp only [send_command_go, send_body, attemptLast, hat]
        by_cases hr : r = ""
        · rw [if_pos hr, if_pos hr, if_neg hnlt]
          rfl
        · rw [if_neg hr, if_neg hr]
          by_cases hnr : parse_response g r = ParseOutcome.raised
          · rw [if_pos hnr, if_pos hnr]
            rfl
          · rw [if_neg hnr, if_neg hnr]
            by_cases hro : respOk (parse_response g r) = true
            · rw [if_pos hro, if_pos hro]
              rfl
            · rw [if_neg hro, if_neg hro, if_neg hnlt]
              rfl
    | succ n =>
      have hlt : rc < maxR := by omega
      have hn : n = maxR - (rc + 1) := by omega
      cases hat : att rc with
      | serExn => simp [send_command_go, send_body, pyCatchAll, hat]
      | genExn => simp [send_command_go, send_body, pyCatchAll, hat]
      | resp r =>
        simp only [send_command_go, send_body, hat]
        by_cases hr : r = ""
        · rw [if_pos hr, if_pos hr, if_pos hlt]
          simp only [send_command, pyCatchAll, hn]
        · rw [if_neg hr, if_neg hr]
          by_cases hnr : parse_response g r = ParseOutcome.raised
          · rw [if_pos hnr, if_pos hnr]
            rfl
          · rw [if_neg hnr, if_neg hnr]
            by_cases hro : respOk (parse_response g r) = true
            · rw [if_pos hro, if_pos hro]
              rfl
            · rw [if_neg hro, if_neg hro, if_pos hlt]
              simp only [send_command, pyCatchAll, hn]
  refine ⟨h1, ?_, ?_⟩
  · intro hat
    simp only [send_command]
    cases hrem : maxR - rc with
    | zero => simp [send_command_go, attemptLast, hat]
    | succ n => simp [send_command_go, hat]
  · intro e he
    rw [h1, he]
    rfl

/-- Witness for C10: a transport raising a `SerialException` on the first
attempt gives a close-then-reopen trace and a `False` return, matching the
caught body error. -/
theorem c10_total_boundary_witness :
    (attSer 0 = AttB.serExn ∧ send_command gW 2 1 "CMD" attSer 0 = (false, [Ev.closeReopen]))
    ∧ (send_body gW 2 1 "CMD" attSer 0 = .error PyExn.serial
        ∧ (send_command gW 2 1 "CMD" attSer 0).1 = false) :=
  ⟨⟨rfl, (c10_total_boundary gW 2 1 "CMD" attSer 0).2.1 rfl⟩,
    ⟨rfl, (c10_total_boundary gW 2 1 "CMD" attSer 0).2.2 PyExn.serial rfl⟩⟩
